import Mathlib

/-!
Verification model of the `/api/generate` serverless function of the
"the-wrong-joke" repository (richest revision).

Strings are modelled as Lean `String` (a structure over `List Char`);
the JavaScript string operations used by the source (`trim`,
`replace(/\s+$/,'')`, the trailing-punctuation regex, `lastIndexOf`,
`split/join` removal, `startsWith`, `endsWith`, `includes`) are
implemented below over the underlying character lists.  JSON values
produced by the host runtime's `JSON.parse` are modelled by the
inductive `JSValue`; `processModelOutput`'s parsing step
(`JSON.parse` of `extractJSON`'s output) is the host runtime's, so the
post-parse part of `processModelOutput` is embedded as
`processParsedOutput`, taking the parsed value as input.  The
pseudo-random choice `Math.floor(Math.random()*ENDINGS.length)` of
`pickEnding` is modelled by an explicit index parameter reduced modulo
the catalog length.  The network environment of `openaiChatWithRetry`
is modelled by a function from attempt number to that attempt's fetch
outcome.
-/

/-- JavaScript whitespace characters (the ASCII ones plus NBSP), as
matched by `trim` and `\s` in the source's regexes. -/
def wsB (c : Char) : Bool :=
  c == ' ' || c == '\t' || c == '\n' || c == '\r' || c == '\x0b' || c == '\x0c' || c == '\xa0'

/-- The trailing-punctuation character class `[\s.!?…"'’”)\]}:;]` used
by the source to clean a joke's tail into an abrupt cut. -/
def tailJunkB (c : Char) : Bool :=
  wsB c || c == '.' || c == '!' || c == '?' || c == '…' || c == '"' || c == '\x27' ||
    c == '’' || c == '”' || c == ')' || c == ']' || c == '\x7d' || c == ':' || c == ';'

/-- `String.prototype.trim`: drop whitespace from both ends. -/
def trimL (l : List Char) : List Char :=
  ((l.dropWhile wsB).reverse.dropWhile wsB).reverse

/-- `s.trim()` on strings. -/
def jsTrimS (s : String) : String := String.mk (trimL s.data)

/-- `s.replace(/\s+$/, '')`: drop trailing whitespace only. -/
def stripTrailWs (s : String) : String :=
  String.mk ((s.data.reverse.dropWhile wsB).reverse)

/-- `s.replace(/[\s.!?…"'’”)\]}:;]+$/u, '')`: drop the trailing run of
whitespace/punctuation. -/
def stripTailJunk (s : String) : String :=
  String.mk ((s.data.reverse.dropWhile tailJunkB).reverse)

/-- `s.startsWith(t)`. -/
def strStartsWith (s t : String) : Bool := t.data.isPrefixOf s.data

/-- `s.endsWith(t)`. -/
def strEndsWith (s t : String) : Bool := t.data.reverse.isPrefixOf s.data.reverse

/-- Rightmost index at which `n` occurs in the list (JS `lastIndexOf`),
`none` when it does not occur. -/
def lastIdx (n : List Char) : List Char → Option Nat
  | [] => if n.isPrefixOf ([] : List Char) then some 0 else none
  | c :: rest =>
    match lastIdx n rest with
    | some i => some (i + 1)
    | none => if n.isPrefixOf (c :: rest) then some 0 else none

/-- Leftmost index at which `n` occurs in the list, `none` when it
does not occur. -/
def findSub (n : List Char) : List Char → Option Nat
  | [] => if n.isPrefixOf ([] : List Char) then some 0 else none
  | c :: rest =>
    if n.isPrefixOf (c :: rest) then some 0
    else (findSub n rest).map fun i => i + 1

/-- Remove every (leftmost, non-overlapping) occurrence of `n`
(JS `h.split(n).join('')`), with a fuel argument bounding the scan. -/
def removeAllGo (n : List Char) : Nat → List Char → List Char
  | _, [] => []
  | 0, l => l
  | fuel + 1, c :: rest =>
    if n.isPrefixOf (c :: rest) then removeAllGo n fuel ((c :: rest).drop n.length)
    else c :: removeAllGo n fuel rest

/-- `h.split(n).join('')`. -/
def removeAllSub (n h : List Char) : List Char := removeAllGo n h.length h

/-- Number of positions at which `n` occurs in `hay`. -/
def occCount (n hay : List Char) : Nat :=
  (List.range (hay.length + 1)).countP fun i => n.isPrefixOf (hay.drop i)

/-- Case-insensitive list prefix test (for the `/i` flag of the
source's code-fence regex). -/
def ciPrefixB : List Char → List Char → Bool
  | [], _ => true
  | _ :: _, [] => false
  | p :: ps, c :: cs => (p.toLower == c.toLower) && ciPrefixB ps cs

/-- Parsed JSON values as produced by the host runtime's `JSON.parse`. -/
inductive JSValue where
  | vNull
  | vBool (b : Bool)
  | vNum (n : Int)
  | vStr (s : String)
  | vArr (elems : List JSValue)
  | vObj (fields : List (String × JSValue))

/-- JavaScript truthiness test (restricted to JSON values). -/
def jsFalsy : JSValue → Bool
  | .vNull => true
  | .vBool b => !b
  | .vNum n => n == 0
  | .vStr s => s == ""
  | .vArr _ => false
  | .vObj _ => false

mutual
/-- JavaScript `toString()` on JSON values (arrays join their elements
with commas, `null` elements rendering as the empty string). -/
def jsToString : JSValue → String
  | .vNull => "null"
  | .vBool b => if b then "true" else "false"
  | .vNum n => toString n
  | .vStr s => s
  | .vArr xs => String.intercalate "," (jsArrStrs xs)
  | .vObj _ => "[object Object]"

def jsArrStrs : List JSValue → List String
  | [] => []
  | .vNull :: rest => "" :: jsArrStrs rest
  | v :: rest => jsToString v :: jsArrStrs rest
end

/-- `normalizeStr` of the source: `(s || '').toString().trim()`. -/
def normalizeStr (v : JSValue) : String :=
  match v with
  | .vStr s => jsTrimS s
  | v => if jsFalsy v then "" else jsTrimS (jsToString v)

/-- `obj[k]` for a parsed object, `vNull` standing for a missing
property (properties are looked up only after the `in` check). -/
def lookupField (fields : List (String × JSValue)) (k : String) : JSValue :=
  match fields.find? (fun kv => kv.1 == k) with
  | some kv => kv.2
  | none => JSValue.vNull

/-- `k in obj`. -/
def hasKey (fields : List (String × JSValue)) (k : String) : Bool :=
  fields.any fun kv => kv.1 == k

/-- The required key list of `processModelOutput`. -/
def requiredKeys : List String :=
  ["joke", "scenario", "roles", "tone", "length", "ending_phrase", "tags"]

/-- First required key missing from the parsed object, in source
order (the key whose absence is reported). -/
def firstMissingKey (fields : List (String × JSValue)) : Option String :=
  requiredKeys.find? fun k => !(hasKey fields k)

/-- The six-entry ending catalog `ENDINGS` of the source, verbatim. -/
def ENDINGS : List String := [
  "Shit! I was telling it the wrong way...",
  "Hmm... wait, wait, that's not the way.",
  "Mmm... it wasn't like that, but it is very funny, I swear.",
  "No — no, that's not how it goes. Hold on.",
  "Wait. I'm messing it up. This is not how the joke goes.",
  "Hmm... maybe I have it backwards. Sorry, lost it."
]

/-- `pickEnding`: `ENDINGS[Math.floor(Math.random()*ENDINGS.length)]`,
with the random draw modelled by an explicit index reduced modulo the
catalog length. -/
def pickEnding (k : Nat) : String :=
  ENDINGS.get ⟨k % ENDINGS.length, Nat.mod_lt _ (by decide)⟩

/-- `stripAllEndingsFrom` of the source: remove every allowed-ending
occurrence (`out.split(e).join('')` for each catalog entry, in order). -/
def stripAllEndingsFrom (s : String) : String :=
  ENDINGS.foldl (fun acc e => String.mk (removeAllSub e.data acc.data)) s

/-- A request's `params` object: `scenario`/`tone`/`length` are
strings or absent (`none` also standing for any falsy value), `roles`
is a string array or absent (`none` also standing for a non-array). -/
structure JokeParams where
  scenario : Option String
  roles : Option (List String)
  tone : Option String
  length : Option String
deriving DecidableEq

/-- Falsiness of an optional string field (`!p.x`). -/
def strFalsy : Option String → Bool
  | none => true
  | some s => s == ""

/-- `validateParams` of the source.  The JS function mutates its
argument (`p.length = 'medium'`); the model returns the error (first
component, `null` = `none`) together with the params object as left
after the call (second component). -/
def validateParams : Option JokeParams → Option String × Option JokeParams
  | none => (some "Missing params", none)
  | some p =>
    if strFalsy p.scenario then (some "Missing scenario", some p)
    else
      match p.roles with
      | none => (some "Roles must be 1–2", some p)
      | some rs =>
        if rs.length < 1 ∨ rs.length > 2 then (some "Roles must be 1–2", some p)
        else if strFalsy p.tone then (some "Missing tone", some p)
        else if strFalsy p.length then (none, some { p with length := some "medium" })
        else (none, some p)

/-- The artifact assembled by `processModelOutput` on success. -/
structure Artifact where
  joke : String
  scenario : Option String
  roles : Option (List String)
  tone : Option String
  length : Option String
  ending_phrase : String
  tags : List JSValue

/-- The `tags` normalization of the source:
`if (!Array.isArray(obj.tags)) obj.tags = []` (the key's presence has
already been checked). -/
def tagsField (fields : List (String × JSValue)) : List JSValue :=
  match lookupField fields "tags" with
  | .vArr ts => ts
  | _ => []

/-- The ending-selection block of the source (lines 340-352): for
tone `Zizek` force `ENDINGS[0]`; otherwise use the normalized claimed
phrase `e0` when it matches a catalog entry, else the catalog entry
the trimmed joke ends with, else a pseudo-random pick. -/
def endingChoice (pick : Nat) (tone : Option String) (joke e0 : String) : String :=
  if tone == some "Zizek" then ENDINGS.get ⟨0, by decide⟩
  else
    match ENDINGS.find? (fun e => jsTrimS e == e0) with
    | some _ => e0
    | none =>
      match ENDINGS.find? (fun e => strEndsWith (jsTrimS joke) e) with
      | some tl => tl
      | none => pickEnding pick

/-- The post-parse part of `processModelOutput` (lines 322-375 of the
source): the `JSON.parse` of `extractJSON`'s output is the host
runtime's, and its result is this function's `v` argument.  `pick` is
the index drawn by `pickEnding` when it is reached. -/
def processParsedOutput (pick : Nat) (v : JSValue) (params : JokeParams) :
    Except String Artifact :=
  match v with
  | .vObj fields =>
    match firstMissingKey fields with
    | some k => .error ("Missing key: " ++ k)
    | none =>
      match lookupField fields "joke" with
      | .vStr joke =>
        if jsTrimS joke == "" then .error "empty joke"
        else
          match lookupField fields "roles" with
          | .vArr rs =>
            if rs.length < 1 ∨ rs.length > 2 then .error "roles must be array(1–2)"
            else
              let tags := tagsField fields
              let ending :=
                endingChoice pick params.tone joke
                  (normalizeStr (lookupField fields "ending_phrase"))
              let j0 := stripTrailWs joke
              let j :=
                match lastIdx ending.data j0.data with
                | none => stripTailJunk j0 ++ " — " ++ ending
                | some idx =>
                  let head := stripTailJunk (stripAllEndingsFrom (String.mk (j0.data.take idx)))
                  let sep :=
                    if head.data.contains '\n' && !(strEndsWith head "\n") then "\n"
                    else if strEndsWith head "\n" then "" else " — "
                  head ++ sep ++ ending
              .ok {
                joke := j
                scenario := params.scenario
                roles := params.roles
                tone := params.tone
                length := params.length
                ending_phrase := ending
                tags := tags
              }
          | _ => .error "roles must be array(1–2)"
      | _ => .error "empty joke"
  | .vArr _ => .error "Missing key: joke"
  | _ => .error "Invalid JSON object"

/-- Outcome of one `fetch` attempt inside `openaiChatWithRetry`, as
seen by the surrounding code: a response with its status, body text
and whether the body parses as JSON; an `AbortError` (the timeout
fired); or another network error with its message. -/
inductive FetchResult where
  | resp (status : Nat) (body : String) (jsonOk : Bool)
  | abort
  | netErr (msg : String)
deriving DecidableEq

/-- Result of `openaiChatWithRetry`: `{ok:true, status:200, json}`
(the parsed body abstracted to the body text) or
`{ok:false, status, body}`. -/
inductive UpstreamOutcome where
  | success (body : String)
  | failure (status : Nat) (body : String)
deriving DecidableEq

/-- What one iteration of the retry loop does: fall through to the
next attempt (after the backoff sleep) or return. -/
inductive StepOut where
  | retry
  | done (o : UpstreamOutcome)
deriving DecidableEq

/-- The body of the retry loop of `openaiChatWithRetry` for one
attempt (lines 87-122 of the source): `r.ok` is status 200-299;
429/500-504 with attempts remaining backs off and retries; an abort
always backs off and retries (the `isAbort || attempt < retries`
test); any other non-2xx returns the status and body. -/
def attemptStep (retries attempt : Nat) (fr : FetchResult) : StepOut :=
  match fr with
  | .resp status body jsonOk =>
    if 200 ≤ status ∧ status ≤ 299 then
      if jsonOk then .done (.success body)
      else .done (.failure 502 "Non-JSON upstream body")
    else if (status = 429 ∨ (500 ≤ status ∧ status ≤ 504)) ∧ attempt < retries then .retry
    else .done (.failure status body)
  | .abort => .retry
  | .netErr msg =>
    if attempt < retries then .retry
    else .done (.failure 504 (if msg == "" then "Network error" else msg))

/-- The retry loop from a given attempt number, with fuel
`retries + 1 - attempt`; returns the outcome together with the number
of fetch attempts performed.  Exhausting the fuel is the loop running
off its end (`attempt > retries`). -/
def runFrom (env : Nat → FetchResult) (retries : Nat) : Nat → Nat → UpstreamOutcome × Nat
  | _, 0 => (.failure 504 "Exhausted retries", 0)
  | attempt, fuel + 1 =>
    match attemptStep retries attempt (env attempt) with
    | .done o => (o, 1)
    | .retry =>
      let r := runFrom env retries (attempt + 1) fuel
      (r.1, r.2 + 1)

/-- `openaiChatWithRetry` of the source, over an environment giving
each attempt's fetch outcome: the loop `for (attempt = 0; attempt <=
retries; attempt++)`, returning `{ok:false, status:504, body:
'Exhausted retries'}` when the loop exits. -/
def openaiChatWithRetry (retries : Nat) (env : Nat → FetchResult) : UpstreamOutcome × Nat :=
  runFrom env retries 0 (retries + 1)

/-- The terminator `"\n```"` of the source's code-fence regex. -/
def nl3 : List Char := ['\n', '`', '`', '`']

/-- The opening the fence regex ```` /```(?:json)?\n/i ```` accepts at
a position: greedily with the case-insensitive `json`, else bare. -/
def headerLen (l : List Char) : Option Nat :=
  if ciPrefixB "```json\n".data l then some 8
  else if "```\n".data.isPrefixOf l then some 4
  else none

/-- Leftmost match of ```` /```(?:json)?\n([\s\S]*?)\n```/i ````: scan
start positions left to right; at the first position with an
accepted opening followed (lazily) by the terminator, return the
captured group. -/
def fenceMatch : List Char → Option (List Char)
  | [] => none
  | c :: rest =>
    match headerLen (c :: rest) with
    | some hl =>
      match findSub nl3 ((c :: rest).drop hl) with
      | some k => some (((c :: rest).drop hl).take k)
      | none => fenceMatch rest
    | none => fenceMatch rest

/-- `extractJSON` of the source: trim; if the text starts with a
fence, replace it with the regex's trimmed captured group when the
regex matches; if the result is not brace-delimited after trimming,
slice from the first `\x7b` to the last `\x7d` when both exist in
order. -/
def extractJSON (text : String) : String :=
  let s0 := jsTrimS text
  let s1 :=
    if strStartsWith s0 "```" then
      match fenceMatch s0.data with
      | some inner => jsTrimS (String.mk inner)
      | none => s0
    else s0
  if strStartsWith (jsTrimS s1) "\x7b" && strEndsWith (jsTrimS s1) "\x7d" then s1
  else
    match List.findIdx? (fun c => c == '\x7b') s1.data, lastIdx ['\x7d'] s1.data with
    | some f, some l =>
      if f < l then String.mk ((s1.data.drop f).take (l + 1 - f)) else s1
    | _, _ => s1

/-- The claim C1 invariant on an assembled joke, as stated by the
spec: some catalog entry is a suffix, occurs exactly once, and no
other catalog entry occurs anywhere. -/
def endingInvariantB (j : String) : Bool :=
  ENDINGS.any fun e =>
    strEndsWith j e &&
      ENDINGS.all fun e2 => occCount e2.data j.data == (if e2 == e then 1 else 0)

def c1params : JokeParams :=
  { scenario := some "Queue", roles := some ["Visitor"], tone := some "Dry",
    length := some "short" }

def c1obj : JSValue := .vObj [
  ("joke", .vStr "Hmm... wait, wait, that's not the way. He laughs"),
  ("scenario", .vStr "Queue"),
  ("roles", .vArr [.vStr "Visitor"]),
  ("tone", .vStr "Dry"),
  ("length", .vStr "short"),
  ("ending_phrase", .vStr "Shit! I was telling it the wrong way..."),
  ("tags", .vArr [])]

def c1art : Artifact :=
  { joke := "Hmm... wait, wait, that's not the way. He laughs — Shit! I was telling it the wrong way...",
    scenario := some "Queue", roles := some ["Visitor"], tone := some "Dry",
    length := some "short",
    ending_phrase := "Shit! I was telling it the wrong way...",
    tags := [] }

def c2p0 : JokeParams :=
  { scenario := some "Gallery", roles := some ["Guard"], tone := some "Dry", length := none }

def c2p1 : JokeParams :=
  { scenario := some "Gallery", roles := some ["Guard"], tone := some "Dry",
    length := some "medium" }

def c2obj : JSValue := .vObj [
  ("joke", .vStr "A guard naps. Hmm... wait, wait, that's not the way."),
  ("scenario", .vStr "Mars"),
  ("roles", .vArr [.vStr "Alien"]),
  ("tone", .vStr "Sassy"),
  ("length", .vStr "epic"),
  ("ending_phrase", .vStr "Hmm... wait, wait, that's not the way."),
  ("tags", .vArr [])]

def c2art : Artifact :=
  { joke := "A guard naps — Hmm... wait, wait, that's not the way.",
    scenario := some "Gallery", roles := some ["Guard"], tone := some "Dry",
    length := some "medium",
    ending_phrase := "Hmm... wait, wait, that's not the way.",
    tags := [] }

def c4envA : Nat → FetchResult := fun i =>
  if i == 0 then .resp 429 "Too Many Requests" false
  else if i == 1 then .resp 500 "Internal Server Error" false
  else .resp 200 "chat completion body" true

def c4envB : Nat → FetchResult := fun _ => .resp 500 "Internal Server Error" false

def c5params : JokeParams :=
  { scenario := some "Gallery", roles := some ["Curator"], tone := some "Zizek",
    length := some "medium" }

def c5obj : JSValue := .vObj [
  ("joke", .vStr "An old joke from Poland, you know."),
  ("scenario", .vStr "Gallery"),
  ("roles", .vArr [.vStr "Curator"]),
  ("tone", .vStr "Zizek"),
  ("length", .vStr "medium"),
  ("ending_phrase", .vStr "Hmm... wait, wait, that's not the way."),
  ("tags", .vArr [.vStr "zizek"])]

def c5art : Artifact :=
  { joke := "An old joke from Poland, you know — Shit! I was telling it the wrong way...",
    scenario := some "Gallery", roles := some ["Curator"], tone := some "Zizek",
    length := some "medium",
    ending_phrase := "Shit! I was telling it the wrong way...",
    tags := [.vStr "zizek"] }

def c6fields : List (String × JSValue) := [
  ("joke", .vStr "A dog walks into the gallery"),
  ("scenario", .vStr "Gallery"),
  ("roles", .vArr [.vStr "Dog"]),
  ("tone", .vStr "Silly"),
  ("length", .vStr "short"),
  ("ending_phrase", .vStr "Hmm... wait, wait, that's not the way.")]

def c6params : JokeParams :=
  { scenario := some "Gallery", roles := some ["Dog"], tone := some "Silly",
    length := some "short" }

def c6wfields : List (String × JSValue) := [
  ("joke", .vStr "A dog walks into the gallery. Hmm... maybe I have it backwards. Sorry, lost it."),
  ("scenario", .vStr "Gallery"),
  ("roles", .vArr [.vStr "Dog"]),
  ("tone", .vStr "Silly"),
  ("length", .vStr "short"),
  ("ending_phrase", .vStr "Hmm... maybe I have it backwards. Sorry, lost it."),
  ("tags", .vStr "funny")]

def c6wart : Artifact :=
  { joke := "A dog walks into the gallery — Hmm... maybe I have it backwards. Sorry, lost it.",
    scenario := some "Gallery", roles := some ["Dog"], tone := some "Silly",
    length := some "short",
    ending_phrase := "Hmm... maybe I have it backwards. Sorry, lost it.",
    tags := [] }

def c7params : JokeParams :=
  { scenario := some "Queue", roles := some ["Visitor"], tone := some "Dry",
    length := some "short" }

def c7obj : JSValue := .vObj [
  ("joke", .vStr "A visitor asks about the line. ...and that's the joke."),
  ("scenario", .vStr "Queue"),
  ("roles", .vArr [.vStr "Visitor"]),
  ("tone", .vStr "Dry"),
  ("length", .vStr "short"),
  ("ending_phrase", .vStr "Oops"),
  ("tags", .vArr [])]

def c10envA : Nat → FetchResult := fun _ => .abort

def c10envB : Nat → FetchResult := fun i => if i == 0 then .abort else .netErr "socket hang up"

def c8w : String := "\x7b\"joke\":\"hi\"\x7d"

/-! ## Lemmas and claim theorems -/

theorem strData_append (a b : String) : (a ++ b).data = a.data ++ b.data := by
  cases a; cases b; rfl

theorem isPrefixOf_self_append (l r : List Char) : l.isPrefixOf (l ++ r) = true := by
  induction l with
  | nil => simp
  | cons c t ih => simp [List.isPrefixOf, ih]

theorem strEndsWith_append (a b : String) : strEndsWith (a ++ b) b = true := by
  unfold strEndsWith
  rw [strData_append, List.reverse_append]
  exact isPrefixOf_self_append _ _

set_option maxHeartbeats 1000000 in
theorem endings_trim_fix : ∀ e ∈ ENDINGS, jsTrimS e = e := by decide

theorem mem_of_found_trim (e0 f : String)
    (hfind : ENDINGS.find? (fun e => jsTrimS e == e0) = some f) : e0 ∈ ENDINGS := by
  have h1 := List.find?_some hfind
  have h2 := List.mem_of_find?_eq_some hfind
  have h3 : jsTrimS f = e0 := by simpa using h1
  rw [← h3, endings_trim_fix f h2]
  exact h2

theorem endingChoice_mem (pick : Nat) (tone : Option String) (joke e0 : String) :
    endingChoice pick tone joke e0 ∈ ENDINGS := by
  unfold endingChoice
  split
  · exact List.get_mem _ _ _
  · split
    · next f hfind => exact mem_of_found_trim _ _ hfind
    · split
      · next tl hfind => exact List.mem_of_find?_eq_some hfind
      · exact List.get_mem _ _ _

theorem endingChoice_zizek (pick : Nat) (tone : Option String) (joke e0 : String)
    (ht : tone = some "Zizek") :
    endingChoice pick tone joke e0 = "Shit! I was telling it the wrong way..." := by
  unfold endingChoice
  rw [ht]
  rfl

set_option maxHeartbeats 4000000 in
/-- Everything `processParsedOutput` guarantees about an accepted
output: the four request fields are restamped from the request, the
chosen ending is a catalog member and a suffix of the assembled joke,
tone `Zizek` forces catalog entry 0, and `tags` is the normalized
tags field. -/
theorem processOk_spec (pick : Nat) (v : JSValue) (p : JokeParams) (a : Artifact)
    (h : processParsedOutput pick v p = Except.ok a) :
    a.scenario = p.scenario ∧ a.roles = p.roles ∧ a.tone = p.tone ∧ a.length = p.length ∧
    a.ending_phrase ∈ ENDINGS ∧ strEndsWith a.joke a.ending_phrase = true ∧
    (p.tone = some "Zizek" → a.ending_phrase = "Shit! I was telling it the wrong way...") ∧
    (∀ fs, v = JSValue.vObj fs → a.tags = tagsField fs) := by
  cases v with
  | vObj fields =>
    simp only [processParsedOutput] at h
    repeat' split at h
    all_goals first
      | (injection h with h1; subst h1;
         exact ⟨rfl, rfl, rfl, rfl, endingChoice_mem _ _ _ _, strEndsWith_append _ _,
                fun ht => endingChoice_zizek _ _ _ _ ht,
                fun fs hf => by injection hf with h2; exact h2 ▸ rfl⟩)
      | injection h
  | vNull => simp [processParsedOutput] at h
  | vBool b => simp [processParsedOutput] at h
  | vNum n => simp [processParsedOutput] at h
  | vStr s => simp [processParsedOutput] at h
  | vArr es => simp [processParsedOutput] at h

/-- On success, `validateParams` leaves the request unchanged except
for the `length` defaulting. -/
theorem validateParams_ok (p0 p1 : JokeParams)
    (h : validateParams (some p0) = (none, some p1)) :
    p1 = { p0 with length := if strFalsy p0.length then some "medium" else p0.length } := by
  obtain ⟨s0, r0, t0, l0⟩ := p0
  simp only [validateParams] at h
  repeat' split at h
  all_goals injection h with h1 h2
  all_goals try (exact Option.noConfusion h1)
  all_goals (injection h2 with h3; subst h3; simp_all)

theorem runFrom_zero (env : Nat → FetchResult) (retries attempt : Nat) :
    runFrom env retries attempt 0 = (.failure 504 "Exhausted retries", 0) := rfl

theorem runFrom_succ (env : Nat → FetchResult) (retries attempt fuel : Nat) :
    runFrom env retries attempt (fuel + 1) =
      match attemptStep retries attempt (env attempt) with
      | .done o => (o, 1)
      | .retry =>
        ((runFrom env retries (attempt + 1) fuel).1,
          (runFrom env retries (attempt + 1) fuel).2 + 1) := rfl

theorem runFrom_snd_le (env : Nat → FetchResult) (retries : Nat) :
    ∀ fuel attempt, (runFrom env retries attempt fuel).2 ≤ fuel := by
  intro fuel
  induction fuel with
  | zero => intro attempt; simp [runFrom_zero]
  | succ f ih =>
    intro attempt
    rw [runFrom_succ env retries attempt f]
    split
    · simp
    · simpa using Nat.succ_le_succ (ih (attempt + 1))

theorem runFrom_all_retry (env : Nat → FetchResult) (retries : Nat) :
    ∀ fuel attempt,
      (∀ i, attempt ≤ i → i < attempt + fuel → attemptStep retries i (env i) = .retry) →
      runFrom env retries attempt fuel = (.failure 504 "Exhausted retries", fuel) := by
  intro fuel
  induction fuel with
  | zero => intro attempt _; rfl
  | succ f ih =>
    intro attempt hall
    have h0 := hall attempt (Nat.le_refl _) (by omega)
    rw [runFrom_succ env retries attempt f]
    simp only [h0]
    rw [ih (attempt + 1) (fun i h1 h2 => hall i (by omega) (by omega))]

theorem runFrom_last_done (env : Nat → FetchResult) (retries : Nat) (o : UpstreamOutcome) :
    ∀ fuel attempt,
      (∀ i, attempt ≤ i → i < attempt + fuel → attemptStep retries i (env i) = .retry) →
      attemptStep retries (attempt + fuel) (env (attempt + fuel)) = .done o →
      runFrom env retries attempt (fuel + 1) = (o, fuel + 1) := by
  intro fuel
  induction fuel with
  | zero =>
    intro attempt _ hdone
    simp only [Nat.add_zero] at hdone
    rw [runFrom_succ env retries attempt 0]
    simp only [hdone]
  | succ f ih =>
    intro attempt hall hdone
    have h0 := hall attempt (Nat.le_refl _) (by omega)
    rw [runFrom_succ env retries attempt (f + 1)]
    simp only [h0]
    have hdone' : attemptStep retries ((attempt + 1) + f) (env ((attempt + 1) + f)) = .done o := by
      have he : (attempt + 1) + f = attempt + (f + 1) := by omega
      rw [he]; exact hdone
    rw [ih (attempt + 1) (fun i h1 h2 => hall i (by omega) (by omega)) hdone']

set_option maxHeartbeats 2000000 in
/-- Claim C1 counterexample: this accepted generator output (the
claimed ending is valid but absent from the joke text, whose own text
starts with a different catalog entry) yields an artifact whose joke
contains a catalog entry outside the terminal occurrence, violating
the claimed invariant: in the append branch the head is not purged of
catalog entries. -/
theorem c1_counterexample :
    processParsedOutput 0 c1obj c1params = Except.ok c1art ∧
      endingInvariantB c1art.joke = false := by
  exact ⟨rfl, by decide⟩

/-- Claim C1 (amended): for every accepted generator output the
artifact's joke ends with the artifact's `ending_phrase`, which is a
member of the six-entry ENDINGS catalog; but catalog members may also
occur in the joke before the terminal ending (in particular in the
branch where the chosen ending was absent and is appended, the head is
not purged). -/
theorem c1_thm (pick : Nat) (v : JSValue) (p : JokeParams) (a : Artifact)
    (h : processParsedOutput pick v p = Except.ok a) :
    strEndsWith a.joke a.ending_phrase = true ∧ a.ending_phrase ∈ ENDINGS :=
  ⟨(processOk_spec pick v p a h).2.2.2.2.2.1, (processOk_spec pick v p a h).2.2.2.2.1⟩

set_option maxHeartbeats 2000000 in
/-- Claim C1 witness: the amended theorem applied to a concrete
accepted output. -/
theorem c1_witness :
    processParsedOutput 0 c1obj c1params = Except.ok c1art ∧
      (strEndsWith c1art.joke c1art.ending_phrase = true ∧
        c1art.ending_phrase ∈ ENDINGS) :=
  ⟨rfl, c1_thm 0 c1obj c1params c1art rfl⟩

/-- Claim C2: for every valid request and every accepted generator
output, the artifact's `scenario`, `roles`, `tone` and `length` equal
the original request's values (length defaulted to "medium" when
absent/falsy), never the generator's echoed values. -/
theorem c2_thm (p0 p1 : JokeParams) (pick : Nat) (v : JSValue) (a : Artifact)
    (hv : validateParams (some p0) = (none, some p1))
    (hp : processParsedOutput pick v p1 = Except.ok a) :
    a.scenario = p0.scenario ∧ a.roles = p0.roles ∧ a.tone = p0.tone ∧
      a.length = (if strFalsy p0.length then some "medium" else p0.length) := by
  obtain ⟨hs, hr, htn, hl, _⟩ := processOk_spec pick v p1 a hp
  have h1 := validateParams_ok p0 p1 hv
  subst h1
  exact ⟨hs, hr, htn, hl⟩

set_option maxHeartbeats 2000000 in
/-- Claim C2 witness: a request without `length` and a generator
output echoing different field values; the artifact carries the
request's values with length defaulted. -/
theorem c2_witness :
    validateParams (some c2p0) = (none, some c2p1) ∧
    processParsedOutput 0 c2obj c2p1 = Except.ok c2art ∧
    (c2art.scenario = c2p0.scenario ∧ c2art.roles = c2p0.roles ∧ c2art.tone = c2p0.tone ∧
      c2art.length = (if strFalsy c2p0.length then some "medium" else c2p0.length)) :=
  ⟨rfl, rfl, c2_thm c2p0 c2p1 0 c2obj c2art rfl rfl⟩

/-- Claim C3 counterexample: HTTP 505 is a 5xx status, and with
attempts remaining (attempt 0 of retries 2) the invoker still makes it
a terminal failure rather than a backoff-and-retry transition: the
retryable range in the code is 500-504, not 500-599. -/
theorem c3_counterexample :
    (0 : Nat) < 2 ∧ (500 ≤ 505 ∧ 505 ≤ 599) ∧
      attemptStep 2 0 (FetchResult.resp 505 "HTTP Version Not Supported" false) =
        StepOut.done (.failure 505 "HTTP Version Not Supported") :=
  ⟨by decide, by decide, rfl⟩

/-- Claim C3 (amended): for an attempt with attempts remaining, a
response with status 429 or 500-504, or a timeout/abort, or a network
error, leads to a backoff-and-retry transition; any other non-2xx
status (including 505-599) is a terminal failure carrying that
response's status and body, even with attempts remaining. -/
theorem c3_thm (retries attempt status : Nat) (body msg : String) (jsonOk : Bool)
    (hrem : attempt < retries) (hnon2xx : ¬(200 ≤ status ∧ status ≤ 299)) :
    (attemptStep retries attempt (.resp status body jsonOk) = .retry ↔
      (status = 429 ∨ (500 ≤ status ∧ status ≤ 504))) ∧
    (¬(status = 429 ∨ (500 ≤ status ∧ status ≤ 504)) →
      attemptStep retries attempt (.resp status body jsonOk) = .done (.failure status body)) ∧
    attemptStep retries attempt FetchResult.abort = .retry ∧
    attemptStep retries attempt (.netErr msg) = .retry := by
  unfold attemptStep
  dsimp only
  rw [if_neg hnon2xx]
  refine ⟨⟨?_, ?_⟩, ?_, rfl, ?_⟩
  · intro h
    by_contra hc
    rw [if_neg (fun hand => hc hand.1)] at h
    exact StepOut.noConfusion h
  · intro hA
    rw [if_pos ⟨hA, hrem⟩]
  · intro hc
    rw [if_neg (fun hand => hc hand.1)]
  · rw [if_pos hrem]

/-- Claim C3 witness: the amended classification at a concrete
attempt with attempts remaining and a non-retryable status (418). -/
theorem c3_witness :
    ((0 : Nat) < 2 ∧ ¬(200 ≤ 418 ∧ 418 ≤ 299)) ∧
    ((attemptStep 2 0 (.resp 418 "teapot" false) = .retry ↔
        (418 = 429 ∨ (500 ≤ 418 ∧ 418 ≤ 504))) ∧
      (¬(418 = 429 ∨ (500 ≤ 418 ∧ 418 ≤ 504)) →
        attemptStep 2 0 (.resp 418 "teapot" false) = .done (.failure 418 "teapot")) ∧
      attemptStep 2 0 FetchResult.abort = .retry ∧
      attemptStep 2 0 (.netErr "boom") = .retry) :=
  ⟨⟨by decide, by decide⟩, c3_thm 2 0 418 "teapot" "boom" false (by decide) (by decide)⟩

/-- Claim C4: with retries = 2, the sequence [429, 500, 200-parseable]
succeeds on the third attempt; the sequence [500, 500, 500] is a
terminal failure after exactly 3 attempts; and in general at most
retries + 1 attempts are performed. -/
theorem c4_thm :
    openaiChatWithRetry 2 c4envA = (.success "chat completion body", 3) ∧
    openaiChatWithRetry 2 c4envB = (.failure 500 "Internal Server Error", 3) ∧
    ∀ (retries : Nat) (env : Nat → FetchResult),
      (openaiChatWithRetry retries env).2 ≤ retries + 1 :=
  ⟨rfl, rfl, fun retries env => runFrom_snd_le env retries (retries + 1) 0⟩

/-- Claim C5: for every accepted generator output with request tone
"Zizek", the artifact's `ending_phrase` is catalog entry #1,
"Shit! I was telling it the wrong way...", unconditionally. -/
theorem c5_thm (pick : Nat) (v : JSValue) (p : JokeParams) (a : Artifact)
    (ht : p.tone = some "Zizek") (h : processParsedOutput pick v p = Except.ok a) :
    a.ending_phrase = "Shit! I was telling it the wrong way..." :=
  (processOk_spec pick v p a h).2.2.2.2.2.2.1 ht

set_option maxHeartbeats 2000000 in
/-- Claim C5 witness: a Zizek-toned request whose generator claimed a
different catalog ending still gets catalog entry #1. -/
theorem c5_witness :
    processParsedOutput 0 c5obj c5params = Except.ok c5art ∧
      c5art.ending_phrase = "Shit! I was telling it the wrong way..." :=
  ⟨rfl, c5_thm 0 c5obj c5params c5art rfl rfl⟩

/-- Claim C6 (amended): when `tags` is present but not a sequence the
call does not fail on account of tags and the artifact's `tags` is
normalized (to the array itself when it is one, to empty otherwise);
but when the `tags` key is absent (all other required keys present)
the call fails with "Missing key: tags". -/
theorem c6_thm (pick : Nat) (p : JokeParams) (fields : List (String × JSValue)) (a : Artifact) :
    (processParsedOutput pick (JSValue.vObj fields) p = Except.ok a →
      a.tags = tagsField fields) ∧
    (firstMissingKey fields = some "tags" →
      processParsedOutput pick (JSValue.vObj fields) p = Except.error "Missing key: tags") := by
  constructor
  · intro h
    exact (processOk_spec pick _ p a h).2.2.2.2.2.2.2 fields rfl
  · intro hm
    simp [processParsedOutput, hm]

set_option maxHeartbeats 2000000 in
/-- Claim C6 counterexample: a parsed generator object with every
required key except `tags` fails with "Missing key: tags" — the
absent-tags case is not normalized to an empty sequence, contrary to
the claim. -/
theorem c6_counterexample :
    processParsedOutput 0 (JSValue.vObj c6fields) c6params =
      Except.error "Missing key: tags" := rfl

set_option maxHeartbeats 2000000 in
/-- Claim C6 witness: `tags` present but a string (not a sequence) is
normalized to the empty sequence without failing, and the absent-tags
case of the amended claim at the counterexample fields. -/
theorem c6_witness :
    processParsedOutput 0 (JSValue.vObj c6wfields) c6params = Except.ok c6wart ∧
    c6wart.tags = [] ∧
    processParsedOutput 0 (JSValue.vObj c6fields) c6params =
      Except.error "Missing key: tags" :=
  ⟨rfl, (c6_thm 0 c6params c6wfields c6wart).1 rfl,
    (c6_thm 0 c6params c6fields c6wart).2 rfl⟩

set_option maxHeartbeats 4000000 in
/-- Claim C7: for the request (Queue, [Visitor], Dry, short), a
generator `ending_phrase` "Oops" (not in the catalog) and a joke text
ending with "...and that's the joke.": for every possible
pseudo-random draw, the enforcer picks that catalog entry, strips the
trailing period, and appends " — " followed by the chosen ending,
which is also recorded as the artifact's `ending_phrase`. -/
theorem c7_thm (i : Fin 6) :
    processParsedOutput i.val c7obj c7params =
      Except.ok {
        joke := "A visitor asks about the line. ...and that's the joke — " ++ pickEnding i.val,
        scenario := some "Queue", roles := some ["Visitor"], tone := some "Dry",
        length := some "short",
        ending_phrase := pickEnding i.val,
        tags := [] } := by
  fin_cases i <;> rfl

/-- Claim C9 counterexample: a request without a `length` field is
mutated by `validateParams` — the call succeeds and the params object
afterwards differs from the one passed in (its `length` is now
"medium"). -/
theorem c9_counterexample :
    (validateParams (some
        { scenario := some "Queue", roles := some ["Visitor"], tone := some "Dry",
          length := none })).1 = none ∧
    (validateParams (some
        { scenario := some "Queue", roles := some ["Visitor"], tone := some "Dry",
          length := none })).2 ≠
      some { scenario := some "Queue", roles := some ["Visitor"], tone := some "Dry",
             length := none } := by
  decide

/-- Claim C9 (amended): `validateParams`'s only side effect on the
request is the `length` defaulting: the params object after the call
equals the one passed in, except that when validation reaches the
length check with a falsy `length`, that field is set to "medium". -/
theorem c9_thm (p : JokeParams) :
    (validateParams (some p)).2 =
      some (if (validateParams (some p)).1.isNone && strFalsy p.length
            then { p with length := some "medium" } else p) := by
  unfold validateParams
  repeat' split
  all_goals simp_all

/-- Claim C10: when every attempt up to and including the final one
(attempt number = retries) aborts on timeout, the loop still takes the
backoff-and-continue path on the final attempt, exits, and returns the
fall-through {ok:false, 504, "Exhausted retries"} — not the
per-attempt "Upstream timeout" diagnostic; while a non-abort network
error on the final attempt returns 504 with the error's message. -/
theorem c10_thm (retries : Nat) (env : Nat → FetchResult) (msg : String) :
    ((∀ i, i ≤ retries → env i = FetchResult.abort) →
      openaiChatWithRetry retries env = (.failure 504 "Exhausted retries", retries + 1)) ∧
    ((∀ i, i < retries → env i = FetchResult.abort) →
      env retries = FetchResult.netErr msg → msg ≠ "" →
      openaiChatWithRetry retries env = (.failure 504 msg, retries + 1)) := by
  constructor
  · intro hall
    exact runFrom_all_retry env retries (retries + 1) 0 (fun i h1 h2 => by
      rw [hall i (by omega)]; rfl)
  · intro habort hnet hmsg
    have hdone : attemptStep retries (0 + retries) (env (0 + retries)) =
        .done (.failure 504 msg) := by
      simp only [Nat.zero_add]
      rw [hnet]
      unfold attemptStep
      dsimp only
      rw [if_neg (by omega : ¬retries < retries)]
      rw [if_neg (fun hb => hmsg (by simpa using hb))]
    exact runFrom_last_done env retries (.failure 504 msg) retries 0
      (fun i h1 h2 => by rw [habort i (by omega)]; rfl) hdone

/-- Claim C10 witness: with retries = 1, an all-abort run returns the
fall-through "Exhausted retries" after 2 attempts, and an abort
followed by a final-attempt network error returns 504 with that
error's message. -/
theorem c10_witness :
    openaiChatWithRetry 1 c10envA = (.failure 504 "Exhausted retries", 2) ∧
    openaiChatWithRetry 1 c10envB = (.failure 504 "socket hang up", 2) :=
  ⟨(c10_thm 1 c10envA "").1 (fun i _ => rfl),
   (c10_thm 1 c10envB "socket hang up").2
     (fun i hi => by interval_cases i <;> rfl) rfl (by decide)⟩

theorem strMk_data (s : String) : String.mk s.data = s := by cases s; rfl

theorem ciPrefixB_self_append (p r : List Char) : ciPrefixB p (p ++ r) = true := by
  induction p with
  | nil => rfl
  | cons c cs ih => simp [ciPrefixB, ih]

theorem isPrefixOf_append_of_ge (n : List Char) :
    ∀ (a b : List Char), n.length ≤ a.length → n.isPrefixOf (a ++ b) = n.isPrefixOf a := by
  induction n with
  | nil => intro a b h; simp
  | cons x xs ih =>
    intro a b h
    cases a with
    | nil => simp at h
    | cons y ys =>
      rw [List.cons_append]
      simp only [List.isPrefixOf]
      rw [ih ys b (Nat.le_of_succ_le_succ h)]

theorem findSub_cons (n : List Char) (c : Char) (rest : List Char) :
    findSub n (c :: rest) =
      if n.isPrefixOf (c :: rest) then some 0 else (findSub n rest).map fun i => i + 1 := rfl

theorem fenceMatch_cons (c : Char) (rest : List Char) :
    fenceMatch (c :: rest) =
      match headerLen (c :: rest) with
      | some hl =>
        match findSub nl3 ((c :: rest).drop hl) with
        | some k => some (((c :: rest).drop hl).take k)
        | none => fenceMatch rest
      | none => fenceMatch rest := rfl

theorem occCount_zero (s : List Char) (h : occCount nl3 s = 0) :
    ∀ i, nl3.isPrefixOf (s.drop i) = false := by
  intro i
  by_cases hi : i ≤ s.length
  · have h2 := (List.countP_eq_zero.mp h) i (List.mem_range.mpr (by omega))
    exact Bool.eq_false_iff.mpr h2
  · rw [List.drop_eq_nil_of_le (by omega)]
    decide

theorem findSub_append_nl3 (s : List Char)
    (h : ∀ i, nl3.isPrefixOf (List.drop i s) = false) :
    findSub nl3 (s ++ nl3) = some s.length := by
  induction s with
  | nil => rfl
  | cons c cs ih =>
    have hp : nl3.isPrefixOf (c :: (cs ++ nl3)) = false := by
      rcases cs with _ | ⟨d1, _ | ⟨d2, _ | ⟨d3, rest⟩⟩⟩
      · have hc : (['`', '`', '`'] : List Char).isPrefixOf ['\n', '`', '`', '`'] = false := by
          decide
        simp [List.isPrefixOf, nl3, hc]
      · have hc : (['`', '`'] : List Char).isPrefixOf ['\n', '`', '`', '`'] = false := by
          decide
        simp [List.isPrefixOf, nl3, hc]
      · have hc : (['`'] : List Char).isPrefixOf ['\n', '`', '`', '`'] = false := by
          decide
        simp [List.isPrefixOf, nl3, hc]
      · have h4 : nl3.length ≤ (c :: d1 :: d2 :: d3 :: rest).length := by
          simp [nl3]
        have := isPrefixOf_append_of_ge nl3 (c :: d1 :: d2 :: d3 :: rest) nl3 h4
        rw [show c :: (d1 :: d2 :: d3 :: rest ++ nl3) =
              (c :: d1 :: d2 :: d3 :: rest) ++ nl3 from rfl, this]
        exact h 0
    rw [show (c :: cs) ++ nl3 = c :: (cs ++ nl3) from rfl]
    rw [findSub_cons, hp]
    simp only [Bool.false_eq_true, if_false]
    rw [ih (fun i => h (i + 1))]
    rfl

theorem dropWhile_cons_false (c : Char) (t : List Char) (h : wsB c = false) :
    (c :: t).dropWhile wsB = c :: t := by
  simp [List.dropWhile_cons, h]

theorem trimL_eq_self (l : List Char) (hh : l.dropWhile wsB = l)
    (ht : l.reverse.dropWhile wsB = l.reverse) : trimL l = l := by
  unfold trimL
  rw [hh, ht, List.reverse_reverse]

theorem prefix_single (c : Char) (l : List Char) (h : ([c] : List Char).isPrefixOf l = true) :
    ∃ t, l = c :: t := by
  cases l with
  | nil => exact absurd h (by simp [List.isPrefixOf])
  | cons d t =>
    refine ⟨t, ?_⟩
    simp [List.isPrefixOf] at h
    rw [h]

theorem extractJSON_clean (s : String) (h1 : jsTrimS s = s)
    (h2 : strStartsWith s "\x7b" = true) (h3 : strEndsWith s "\x7d" = true) :
    extractJSON s = s := by
  have hb : strStartsWith s "```" = false := by
    unfold strStartsWith at h2 ⊢
    obtain ⟨t, hd⟩ := prefix_single '\x7b' s.data (by exact h2)
    rw [hd]
    have he : ("```".data) = ['`', '`', '`'] := rfl
    rw [he]
    simp [List.isPrefixOf]
  simp only [extractJSON]
  rw [h1, hb]
  simp only [Bool.false_eq_true, if_false]
  rw [h1, h2, h3]
  simp

theorem trimL_of_ends (a b : Char) (m : List Char) (ha : wsB a = false) (hb : wsB b = false) :
    trimL (a :: (m ++ [b])) = a :: (m ++ [b]) := by
  apply trimL_eq_self
  · exact dropWhile_cons_false a _ ha
  · have hrev : (a :: (m ++ [b])).reverse = b :: (m.reverse ++ [a]) := by simp
    rw [hrev]
    exact dropWhile_cons_false b _ hb

theorem extractJSON_fenced (s : String) (h1 : jsTrimS s = s)
    (h2 : strStartsWith s "\x7b" = true) (h3 : strEndsWith s "\x7d" = true)
    (h4 : occCount nl3 s.data = 0) :
    extractJSON ("```json\n" ++ s ++ "\n```") = extractJSON s := by
  have hnotin := occCount_zero s.data h4
  have l1 : ("```json\n".data : List Char) = ['`', '`', '`', 'j', 's', 'o', 'n', '\n'] := rfl
  have htd : ("```json\n" ++ s ++ "\n```").data =
      "```json\n".data ++ (s.data ++ nl3) := by
    rw [strData_append, strData_append, List.append_assoc]
    rfl
  have hshape : ("```json\n" ++ s ++ "\n```").data =
      '`' :: ((['`', '`', 'j', 's', 'o', 'n', '\n'] ++ (s.data ++ ['\n', '`', '`'])) ++ ['`']) := by
    rw [htd, l1]
    simp [nl3, List.append_assoc]
  have htriml : trimL ("```json\n" ++ s ++ "\n```").data = ("```json\n" ++ s ++ "\n```").data := by
    rw [hshape]
    exact trimL_of_ends '`' '`' _ (by decide) (by decide)
  have htrim : jsTrimS ("```json\n" ++ s ++ "\n```") = "```json\n" ++ s ++ "\n```" := by
    unfold jsTrimS
    rw [htriml, strMk_data]
  have hst : strStartsWith ("```json\n" ++ s ++ "\n```") "```" = true := by
    unfold strStartsWith
    rw [htd, l1]
    simp [List.isPrefixOf, show ("```".data : List Char) = ['`', '`', '`'] from rfl]
  have hh : headerLen ("```json\n".data ++ (s.data ++ nl3)) = some 8 := by
    unfold headerLen
    rw [if_pos (ciPrefixB_self_append _ _)]
  have hfm : fenceMatch ("```json\n" ++ s ++ "\n```").data = some s.data := by
    rw [htd]
    rw [show ("```json\n".data ++ (s.data ++ nl3) : List Char) =
          '`' :: ("``json\n".data ++ (s.data ++ nl3)) from rfl]
    rw [fenceMatch_cons]
    rw [show headerLen ('`' :: ("``json\n".data ++ (s.data ++ nl3))) = some 8 from hh]
    dsimp only
    rw [show ('`' :: ("``json\n".data ++ (s.data ++ nl3))).drop 8 = s.data ++ nl3 from by
      rw [show ('`' :: ("``json\n".data ++ (s.data ++ nl3))) =
            "```json\n".data ++ (s.data ++ nl3) from rfl]
      rw [show (8 : Nat) = ("```json\n".data).length from rfl]
      exact List.drop_left _ _]
    rw [findSub_append_nl3 s.data hnotin]
    dsimp only
    rw [show s.data.length = (s.data).length from rfl, List.take_left]
  have hLHS : extractJSON ("```json\n" ++ s ++ "\n```") = s := by
    simp only [extractJSON]
    rw [htrim, hst]
    simp only [if_true]
    rw [hfm]
    dsimp only
    rw [strMk_data, h1]
    rw [h1, h2, h3]
    simp
  rw [hLHS, extractJSON_clean s h1 h2 h3]

/-- Claim C8 counterexample: the payload below is a clean structured
object (trim-fixed, starts with `\x7b`, ends with `\x7d`), yet feeding
it wrapped in a ```json fence does not yield the unfenced result: the
lazy fence regex stops at the `\n`-plus-backticks run inside the
payload. -/
theorem c8_counterexample :
    (jsTrimS "\x7b\n```\n\x7d" = "\x7b\n```\n\x7d" ∧
      strStartsWith "\x7b\n```\n\x7d" "\x7b" = true ∧
      strEndsWith "\x7b\n```\n\x7d" "\x7d" = true) ∧
    extractJSON "\x7b\n```\n\x7d" = "\x7b\n```\n\x7d" ∧
    extractJSON ("```json\n" ++ "\x7b\n```\n\x7d" ++ "\n```") ≠
      extractJSON "\x7b\n```\n\x7d" := by
  refine ⟨⟨?_, ?_, ?_⟩, ?_, ?_⟩ <;> decide

/-- Claim C8 (amended): extractJSON returns a clean structured object
(trim-fixed, brace-delimited) unchanged; and wrapping such a payload
in a ```json code fence yields a result identical to the unfenced
case provided the payload contains no occurrence of the fence
terminator (a newline followed by three backticks). -/
theorem c8_thm (s : String) (h1 : jsTrimS s = s)
    (h2 : strStartsWith s "\x7b" = true) (h3 : strEndsWith s "\x7d" = true) :
    extractJSON s = s ∧
      (occCount nl3 s.data = 0 →
        extractJSON ("```json\n" ++ s ++ "\n```") = extractJSON s) :=
  ⟨extractJSON_clean s h1 h2 h3, fun h4 => extractJSON_fenced s h1 h2 h3 h4⟩

/-- Claim C8 witness: the amended theorem applied to a concrete clean
payload. -/
theorem c8_witness :
    (jsTrimS c8w = c8w ∧ strStartsWith c8w "\x7b" = true ∧
      strEndsWith c8w "\x7d" = true ∧ occCount nl3 c8w.data = 0) ∧
    (extractJSON c8w = c8w ∧
      extractJSON ("```json\n" ++ c8w ++ "\n```") = extractJSON c8w) :=
  ⟨⟨by decide, by decide, by decide, by decide⟩,
   ⟨(c8_thm c8w (by decide) (by decide) (by decide)).1,
    (c8_thm c8w (by decide) (by decide) (by decide)).2 (by decide)⟩⟩
